import Mathlib

/-!
Verification of the WeMo + Govee controller (`main.py` FastAPI variant and
`src/worker.py` Cloudflare Worker variant) against its specification.

The embedding below translates the registry, event-broadcast and Govee
state-derivation code into executable Lean definitions:

* Python `queue.Queue` objects registered with the broadcaster become
  `EQueue` values carrying an identity, a FIFO event list, and a `broken`
  flag modelling a `put_nowait` that raises (caught by the bare `except`).
* The per-family registries (`devices`, `govee_devices`) are Python dicts,
  modelled as insertion-ordered association lists with unique keys; dict
  assignment is `upsert`, `dict.pop(k, None)` is `popKey`, `dict.clear()`
  followed by re-insertion is the fold in `govee_discover_store`.
* Network calls (`pywemo`, the Govee REST API) are abstracted as function
  parameters returning `Option` (`none` = the call raised).
-/

namespace WemoCtl

/-! ### Python string primitives -/

/-- Python `str.split(c)` on the character list of a string: splitting on
every occurrence of the delimiter, keeping empty pieces, with `[""]` for
the empty string. -/
def splitOnChar (c : Char) : List Char → List (List Char)
  | [] => [[]]
  | x :: xs =>
    let r := splitOnChar c xs
    if x = c then [] :: r
    else
      match r with
      | [] => [[x]]
      | h :: t => (x :: h) :: t

/-- Python `s.split(c)` returning strings. -/
def pySplit (c : Char) (s : String) : List String :=
  (splitOnChar c s.data).map (fun l => ⟨l⟩)

/-- Python `s.lower()` (ASCII case folding, which is all the code needs for
the action names `on`/`off`). -/
def pyLower (s : String) : String :=
  ⟨s.data.map Char.toLower⟩

/-- Python `s.strip()`: drop leading and trailing whitespace. -/
def pyStrip (s : String) : String :=
  ⟨(((s.data.dropWhile Char.isWhitespace).reverse).dropWhile
      Char.isWhitespace).reverse⟩

/-- An event as built by `broadcast_event` in `main.py`: a `type`, a JSON
`data` payload (modelled as an opaque string), and the fresh
`uuid.uuid4()` timestamp surrogate (modelled as a `Nat`). -/
structure BEvent where
  etype : String
  edata : String
  stamp : Nat
  deriving DecidableEq, Repr

/-- A subscriber queue as registered in `event_queues`: an identity (Python
object identity, used by `list.remove`), the FIFO contents, and whether
`put_nowait` on it raises (the bare `except: pass` in `broadcast_event`). -/
structure EQueue where
  qid : Nat
  events : List BEvent
  broken : Bool
  deriving DecidableEq, Repr

/-- `q.put_nowait(event)` wrapped in `try ... except: pass`: a broken queue
is left unchanged, otherwise the event is appended. -/
def put_nowait (e : BEvent) (q : EQueue) : EQueue :=
  if q.broken then q else { q with events := q.events ++ [e] }

/-- `broadcast_event(event_type, data)`: build the event record and push it
into every queue currently in `event_queues`, ignoring per-queue failures. -/
def broadcast_event (etype edata : String) (stamp : Nat)
    (qs : List EQueue) : List EQueue :=
  qs.map (put_nowait ⟨etype, edata, stamp⟩)

/-- `event_queues.append(q)` with a fresh empty queue, as done on entry to
`event_generator`. -/
def subscribe (qid : Nat) (qs : List EQueue) : List EQueue :=
  qs ++ [⟨qid, [], false⟩]

/-- `list.remove(q)`: drop the first queue with the given identity. -/
def removeFirstQ (qid : Nat) : List EQueue → List EQueue
  | [] => []
  | q :: rest => if q.qid = qid then rest else q :: removeFirstQ qid rest

/-- The `finally` block of `event_generator`:
`if q in event_queues: event_queues.remove(q)`. -/
def events_cleanup (qid : Nat) (qs : List EQueue) : List EQueue :=
  if qs.any (fun q => q.qid = qid) then removeFirstQ qid qs else qs

/-- The ways the `while True` loop body of `event_generator` can end:
`request.is_disconnected()` turning true (`break`), the generator being
closed normally, or an exception propagating out of the loop body. -/
inductive GenExit where
  | peerDisconnect
  | normalEnd
  | abnormal
  deriving DecidableEq, Repr

/-- The effect of `event_generator` on `event_queues` from the moment its
loop ends: whatever the exit path, the `try/finally` funnels control into
`events_cleanup` on the queue list as it stands at exit time. -/
def event_generator_exit (qid : Nat) (qsAtExit : List EQueue)
    (exitPath : GenExit) : List EQueue :=
  match exitPath with
  | .peerDisconnect => events_cleanup qid qsAtExit
  | .normalEnd => events_cleanup qid qsAtExit
  | .abnormal => events_cleanup qid qsAtExit

/-! ### Registries (Python dicts as association lists) -/

/-- `dict.get(k)` on an insertion-ordered association list. -/
def lookupKey {α : Type} : List (String × α) → String → Option α
  | [], _ => none
  | p :: rest, k => if p.1 = k then some p.2 else lookupKey rest k

/-- `d[k] = v` on a Python dict: overwrite in place if the key exists,
otherwise append at the end (insertion order). -/
def upsert {α : Type} : List (String × α) → String → α → List (String × α)
  | [], k, v => [(k, v)]
  | p :: rest, k, v =>
    if p.1 = k then (k, v) :: rest else p :: upsert rest k v

/-- `d.pop(k, None)`: remove the entry for `k` if present, silently do
nothing otherwise. -/
def popKey {α : Type} : List (String × α) → String → List (String × α)
  | [], _ => []
  | p :: rest, k => if p.1 = k then rest else p :: popKey rest k

/-- A WeMo device object as far as the registry is concerned: the
attributes `serialnumber` (possibly absent) and `name` used to derive its
key. -/
structure WemoDevice where
  serialnumber : Option String
  name : String
  deriving DecidableEq, Repr

/-- `getattr(d, "serialnumber", None) or d.name`: Python `or` falls through
on a falsy (absent or empty) serial number. -/
def derived_key (d : WemoDevice) : String :=
  match d.serialnumber with
  | some s => if s = "" then d.name else s
  | none => d.name

/-- The WeMo registry `devices`. -/
abbrev WemoReg := List (String × WemoDevice)

/-- `_store_wemo_devices(found)`: upsert every discovered device at its
derived key (never removes anything). -/
def store_wemo_devices (found : List WemoDevice) (r : WemoReg) : WemoReg :=
  found.foldl (fun acc d => upsert acc (derived_key d) d) r

/-- `GET /devices`: snapshot of the registry values. -/
def api_list_wemo_devices (r : WemoReg) : List WemoDevice :=
  r.map Prod.snd

/-- Outcome of the rename route. -/
inductive RenameResult where
  | badRequest
  | notFound
  | ok (r : WemoReg) (d : WemoDevice)
  deriving DecidableEq, Repr

/-- `POST /devices/{device_id}/rename`: reject an empty (stripped) name
with 400, 404 on an unknown key, otherwise set `device.name`, pop the old
key and reinsert under the derived key (serial number if present and
non-empty, else the new name). -/
def api_wemo_rename (r : WemoReg) (device_id newName : String) :
    RenameResult :=
  let trimmed := pyStrip newName
  if trimmed = "" then .badRequest
  else
    match lookupKey r device_id with
    | none => .notFound
    | some d =>
      let d' : WemoDevice := { d with name := trimmed }
      let newKey := derived_key d'
      .ok (upsert (popKey r device_id) newKey d') d'

/-- Outcome of a WeMo control route (`/devices/{id}/on`). -/
inductive WemoOnResult where
  | notFound
  | deviceError
  | ok
  deriving DecidableEq, Repr

/-- `POST /devices/{device_id}/on`: 404 via `get_wemo_device_or_404` when
the key is absent; otherwise `device.on()` (success abstracted as
`deviceOk`), broadcasting a `wemo_state_change` event on success and
mapping a raised exception to 500. The registry is never written. -/
def api_wemo_on (r : WemoReg) (qs : List EQueue) (device_id : String)
    (deviceOk : Bool) (stamp : Nat) :
    WemoOnResult × WemoReg × List EQueue :=
  match lookupKey r device_id with
  | none => (.notFound, r, qs)
  | some _ =>
    if deviceOk then
      (.ok, r, broadcast_event "wemo_state_change" device_id stamp qs)
    else
      (.deviceError, r, qs)

/-! ### Govee data model -/

/-- A raw Govee device descriptor as returned by
`GET /router/api/v1/user/devices` (the fields the code reads). -/
structure GoveeRaw where
  sku : String
  device : String
  deviceName : Option String
  deriving DecidableEq, Repr

/-- The composite registry key built on storage: `f"{sku}|{dev}"`. -/
def govee_key (d : GoveeRaw) : String :=
  d.sku ++ "|" ++ d.device

/-- The Govee registry `govee_devices`. -/
abbrev GoveeReg := List (String × GoveeRaw)

/-- `govee_discover_devices` storage step: `govee_devices.clear()` followed
by `govee_devices[key] = d` for every descriptor in the response. -/
def govee_discover_store (data : List GoveeRaw) (_r : GoveeReg) : GoveeReg :=
  data.foldl (fun acc d => upsert acc (govee_key d) d) []

/-- One capability record of a device-state payload: its `type`, its
`instance`, and `state.get("value")` (absent state or value ↦ `none`). -/
structure GoveeCap where
  ctype : String
  inst : String
  value : Option Int
  deriving DecidableEq, Repr

/-- The `payload` object of `POST /router/api/v1/device/state`. -/
structure GoveeStatePayload where
  deviceName : Option String
  capabilities : List GoveeCap
  deriving DecidableEq, Repr

/-- The response model `GoveeDeviceInfo` of `main.py` (and the dicts the
worker builds with the same shape). -/
structure GoveeDeviceInfo where
  id : String
  name : Option String
  model : String
  device : String
  controllable : Bool
  retrievable : Bool
  state : String
  online : Option Bool
  deriving DecidableEq, Repr

/-- One iteration of the power-state loop of `_govee_state_from_payload`
in `main.py`: a `powerSwitch` on/off capability sets `"on"` on value `1`
and `"off"` on value `0`, any other value leaves the accumulator
untouched. -/
def main_ps_step (ps : String) (c : GoveeCap) : String :=
  if c.ctype = "devices.capabilities.on_off" ∧ c.inst = "powerSwitch" then
    if c.value = some 1 then "on"
    else if c.value = some 0 then "off"
    else ps
  else ps

/-- The power-state loop of `_govee_state_from_payload` in `main.py`. -/
def main_power_state (caps : List GoveeCap) : String :=
  caps.foldl main_ps_step "unknown"

/-- Python truthiness of `bool(value)` for an integer-or-None value. -/
def pyTruthy (v : Option Int) : Bool :=
  match v with
  | none => false
  | some n => n ≠ 0

/-- One iteration of the `online` loop shared by both variants:
`online = bool(value)` on every `devices.capabilities.online` capability. -/
def online_step (o : Option Bool) (c : GoveeCap) : Option Bool :=
  if c.ctype = "devices.capabilities.online" then some (pyTruthy c.value)
  else o

/-- The `online` loop of `_govee_state_from_payload`. -/
def main_online (caps : List GoveeCap) : Option Bool :=
  caps.foldl online_step none

/-- `_govee_state_from_payload(sku, dev, state_payload)` in `main.py`. -/
def govee_state_from_payload (sku dev : String) (p : GoveeStatePayload) :
    GoveeDeviceInfo :=
  { id := sku ++ "|" ++ dev
    name := p.deviceName
    model := sku
    device := dev
    controllable := true
    retrievable := true
    state := main_power_state p.capabilities
    online := main_online p.capabilities }

/-- One iteration of the inline power-state loop of the worker variant
(`govee_discover`, `govee_list_devices` and `govee_control` in
`src/worker.py`): `power_state = "on" if value == 1 else "off"` on every
matching capability — any non-`1` value, `0` included, yields `"off"`. -/
def worker_ps_step (ps : String) (c : GoveeCap) : String :=
  if c.ctype = "devices.capabilities.on_off" ∧ c.inst = "powerSwitch" then
    if c.value = some 1 then "on" else "off"
  else ps

/-- The inline power-state loop of the worker variant. -/
def worker_power_state (caps : List GoveeCap) : String :=
  caps.foldl worker_ps_step "unknown"

/-- The inline `online` loop of the worker variant (identical to
`main.py`). -/
def worker_online (caps : List GoveeCap) : Option Bool :=
  caps.foldl online_step none

/-- Python `a or b` for optional strings: an absent or empty left operand
falls through to the right. -/
def pyOrStr (a b : Option String) : Option String :=
  match a with
  | some s => if s = "" then b else a
  | none => b

/-- The entry the worker builds for a device whose state fetch succeeded
with payload `p`. -/
def worker_entry (d : GoveeRaw) (p : GoveeStatePayload) : GoveeDeviceInfo :=
  { id := d.sku ++ "|" ++ d.device
    name := pyOrStr p.deviceName d.deviceName
    model := d.sku
    device := d.device
    controllable := true
    retrievable := true
    state := worker_power_state p.capabilities
    online := worker_online p.capabilities }

/-- The entry the worker builds in its per-device `except` branch: the
device is kept, with state `"unknown"` and `online` null. -/
def worker_unknown_entry (d : GoveeRaw) : GoveeDeviceInfo :=
  { id := d.sku ++ "|" ++ d.device
    name := d.deviceName
    model := d.sku
    device := d.device
    controllable := true
    retrievable := true
    state := "unknown"
    online := none }

/-- The batch state-refresh loop of the worker's `govee_discover`: for
every cached descriptor, fetch its state (`none` = the fetch raised) and
build either the regular entry or the unknown-state fallback entry. -/
def govee_discover_worker (fetchState : GoveeRaw → Option GoveeStatePayload)
    (devs : List GoveeRaw) : List GoveeDeviceInfo :=
  devs.map (fun d =>
    match fetchState d with
    | some p => worker_entry d p
    | none => worker_unknown_entry d)

/-- The batch state-refresh loop of `api_govee_discover` in `main.py`: for
every cached key, `govee_get_state(key)` (abstracted; `none` = it raised)
appends its result, and a failure is logged and the device skipped. -/
def api_govee_discover_refresh (getState : String → Option GoveeDeviceInfo)
    (keys : List String) : List GoveeDeviceInfo :=
  keys.filterMap getState

/-- A capability that actually drives the power state in `main.py`: an
on/off `powerSwitch` capability whose value is exactly 0 or 1. -/
def switch_value_cap (c : GoveeCap) : Bool :=
  decide (c.ctype = "devices.capabilities.on_off" ∧ c.inst = "powerSwitch" ∧
    (c.value = some 0 ∨ c.value = some 1))

/-- The last power-driving capability of a payload, which is the one whose
value survives the loop of `_govee_state_from_payload`. -/
def last_switch (caps : List GoveeCap) : Option GoveeCap :=
  (caps.filter switch_value_cap).getLast?

/-- Outcome of a Govee control request, up to the vendor call: the
`proceed` state carries the parsed sku/device and the on/off value sent to
`POST /router/api/v1/device/control`. -/
inductive CtrlResult where
  | badRequest
  | notFound
  | proceed (sku dev : String) (value : Nat)
  deriving DecidableEq, Repr

/-- `device_id.split("|", 1)`: split on the first delimiter only. -/
def split_key1 (k : String) : String × String :=
  match splitOnChar '|' k.data with
  | [] => ("", "")
  | [a] => (⟨a⟩, "")
  | a :: rest => (⟨a⟩, ⟨List.intercalate ['|'] rest⟩)

/-- `govee_control` in `main.py`: lowercase the action and reject anything
but on/off with 400, then look the key up in `govee_devices` (404 when
absent), then split the key and send value 1/0. -/
def govee_control_main (reg : GoveeReg) (device_id action : String) :
    CtrlResult :=
  let a := pyLower action
  if ¬ (a = "on" ∨ a = "off") then .badRequest
  else
    match lookupKey reg device_id with
    | none => .notFound
    | some _ =>
      let sd := split_key1 device_id
      .proceed sd.1 sd.2 (if a = "on" then 1 else 0)

/-- `govee_control` in `src/worker.py`: lowercase the action and reject
anything but on/off with 400, then `device_id.split("|")` and reject with
400 unless it has exactly two parts; no registry is consulted. -/
def govee_control_worker (device_id action : String) : CtrlResult :=
  let a := pyLower action
  if ¬ (a = "on" ∨ a = "off") then .badRequest
  else
    match pySplit '|' device_id with
    | [sku, dev] => .proceed sku dev (if a = "on" then 1 else 0)
    | _ => .badRequest

/-! ### Registry lemmas -/

theorem lookupKey_eq_none_iff {α : Type} (r : List (String × α)) (k : String) :
    lookupKey r k = none ↔ k ∉ r.map Prod.fst := by
  induction r with
  | nil => simp [lookupKey]
  | cons p rest ih =>
    by_cases h : p.1 = k
    · simp [lookupKey, h]
    · simp [lookupKey, h, ih, Ne.symm h]

theorem lookupKey_isSome_mem {α : Type} (r : List (String × α)) (k : String)
    (h : lookupKey r k ≠ none) : k ∈ r.map Prod.fst := by
  by_contra hk
  exact h ((lookupKey_eq_none_iff r k).mpr hk)

theorem lookupKey_upsert_self {α : Type} (r : List (String × α)) (k : String)
    (v : α) : lookupKey (upsert r k v) k = some v := by
  induction r with
  | nil => simp [upsert, lookupKey]
  | cons p rest ih =>
    by_cases h : p.1 = k
    · simp [upsert, h, lookupKey]
    · simp [upsert, h, lookupKey, ih]

theorem lookupKey_upsert_ne {α : Type} (r : List (String × α)) (k k' : String)
    (v : α) (h : k' ≠ k) : lookupKey (upsert r k v) k' = lookupKey r k' := by
  induction r with
  | nil => simp [upsert, lookupKey, Ne.symm h]
  | cons p rest ih =>
    by_cases hp : p.1 = k
    · have h1 : ¬ (k = k') := fun e => h e.symm
      have h2 : ¬ (p.1 = k') := by rw [hp]; exact h1
      simp [upsert, hp, lookupKey, h1, h2]
    · simp [upsert, hp, lookupKey, ih]

theorem mem_keys_upsert {α : Type} (r : List (String × α)) (k k' : String)
    (v : α) : k' ∈ (upsert r k v).map Prod.fst ↔
      k' ∈ r.map Prod.fst ∨ k' = k := by
  induction r with
  | nil => simp [upsert]
  | cons p rest ih =>
    by_cases h : p.1 = k
    · subst h
      simp [upsert]
      tauto
    · simp [upsert, h, ih]
      tauto

theorem nodup_keys_upsert {α : Type} (r : List (String × α)) (k : String)
    (v : α) (h : (r.map Prod.fst).Nodup) :
    ((upsert r k v).map Prod.fst).Nodup := by
  induction r with
  | nil => simp [upsert]
  | cons p rest ih =>
    simp only [List.map_cons, List.nodup_cons] at h
    by_cases hp : p.1 = k
    · rw [show upsert (p :: rest) k v = (k, v) :: rest from by
        simp [upsert, hp]]
      simp only [List.map_cons, List.nodup_cons]
      exact ⟨hp ▸ h.1, h.2⟩
    · rw [show upsert (p :: rest) k v = p :: upsert rest k v from by
        simp [upsert, hp]]
      simp only [List.map_cons, List.nodup_cons]
      refine ⟨?_, ih h.2⟩
      intro hmem
      rcases (mem_keys_upsert rest k p.1 v).mp hmem with hin | heq
      · exact h.1 hin
      · exact hp heq

theorem popKey_sublist {α : Type} (r : List (String × α)) (k : String) :
    (popKey r k).Sublist r := by
  induction r with
  | nil => simp [popKey]
  | cons p rest ih =>
    by_cases h : p.1 = k
    · simp only [popKey, h, if_true]
      exact List.sublist_cons_self p rest
    · simp only [popKey, h, if_false]
      exact List.Sublist.cons₂ p ih

theorem nodup_keys_popKey {α : Type} (r : List (String × α)) (k : String)
    (h : (r.map Prod.fst).Nodup) : ((popKey r k).map Prod.fst).Nodup :=
  ((popKey_sublist r k).map Prod.fst).nodup h

theorem lookupKey_popKey_self {α : Type} (r : List (String × α)) (k : String)
    (h : (r.map Prod.fst).Nodup) : lookupKey (popKey r k) k = none := by
  induction r with
  | nil => simp [popKey, lookupKey]
  | cons p rest ih =>
    simp only [List.map_cons, List.nodup_cons] at h
    by_cases hp : p.1 = k
    · subst hp
      simp only [popKey, if_true]
      exact (lookupKey_eq_none_iff rest p.1).mpr h.1
    · simp [popKey, hp, lookupKey, ih h.2]

theorem popKey_of_absent {α : Type} (r : List (String × α)) (k : String)
    (h : lookupKey r k = none) : popKey r k = r := by
  induction r with
  | nil => simp [popKey]
  | cons p rest ih =>
    by_cases hp : p.1 = k
    · simp [lookupKey, hp] at h
    · simp only [lookupKey, hp, if_false] at h
      simp [popKey, hp, ih h]

theorem lookupKey_upsert_isSome {α : Type} (r : List (String × α))
    (k k' : String) (v : α) (h : (lookupKey r k').isSome) :
    (lookupKey (upsert r k v) k').isSome := by
  by_cases hk : k' = k
  · subst hk
    simp [lookupKey_upsert_self]
  · rwa [lookupKey_upsert_ne r k k' v hk]

theorem lookupKey_store_isSome (found : List WemoDevice) (r : WemoReg)
    (k : String) (h : (lookupKey r k).isSome) :
    (lookupKey (store_wemo_devices found r) k).isSome := by
  induction found generalizing r with
  | nil => simpa [store_wemo_devices] using h
  | cons d rest ih =>
    simp only [store_wemo_devices, List.foldl_cons] at *
    exact ih (upsert r (derived_key d) d)
      (lookupKey_upsert_isSome r (derived_key d) k d h)

theorem nodup_keys_store (found : List WemoDevice) (r : WemoReg)
    (h : (r.map Prod.fst).Nodup) :
    ((store_wemo_devices found r).map Prod.fst).Nodup := by
  induction found generalizing r with
  | nil => simpa [store_wemo_devices] using h
  | cons d rest ih =>
    simp only [store_wemo_devices, List.foldl_cons] at *
    exact ih (upsert r (derived_key d) d)
      (nodup_keys_upsert r (derived_key d) d h)

theorem upsert_of_fresh {α : Type} (r : List (String × α)) (k : String)
    (v : α) (h : k ∉ r.map Prod.fst) : upsert r k v = r ++ [(k, v)] := by
  induction r with
  | nil => simp [upsert]
  | cons p rest ih =>
    simp only [List.map_cons, List.mem_cons] at h
    push_neg at h
    simp [upsert, Ne.symm h.1, ih h.2]

theorem store_wemo_devices_append (found : List WemoDevice) (acc : WemoReg)
    (hfresh : ∀ d ∈ found, derived_key d ∉ acc.map Prod.fst)
    (hnd : (found.map derived_key).Nodup) :
    store_wemo_devices found acc =
      acc ++ found.map (fun d => (derived_key d, d)) := by
  induction found generalizing acc with
  | nil => simp [store_wemo_devices]
  | cons d rest ih =>
    simp only [List.map_cons, List.nodup_cons] at hnd
    have hd : derived_key d ∉ acc.map Prod.fst := hfresh d (by simp)
    simp only [store_wemo_devices, List.foldl_cons]
    rw [upsert_of_fresh acc (derived_key d) d hd]
    have hfresh' : ∀ d' ∈ rest,
        derived_key d' ∉ (acc ++ [(derived_key d, d)]).map Prod.fst := by
      intro d' hd'
      simp only [List.map_append, List.mem_append, List.map_cons,
        List.map_nil, List.mem_singleton]
      push_neg
      refine ⟨hfresh d' (by simp [hd']), ?_⟩
      intro heq
      exact hnd.1 (heq ▸ List.mem_map_of_mem derived_key hd')
    have hrec := ih (acc ++ [(derived_key d, d)]) hfresh' hnd.2
    simp only [store_wemo_devices] at hrec
    rw [hrec, List.append_assoc]
    simp

theorem lookupKey_keyed_map (found : List WemoDevice) (d : WemoDevice)
    (hnd : (found.map derived_key).Nodup) (hmem : d ∈ found) :
    lookupKey (found.map (fun d => (derived_key d, d))) (derived_key d) =
      some d := by
  induction found with
  | nil => simp at hmem
  | cons d0 rest ih =>
    simp only [List.map_cons, List.nodup_cons] at hnd
    rcases List.mem_cons.mp hmem with heq | hrest
    · subst heq
      simp [lookupKey]
    · have hne : derived_key d0 ≠ derived_key d := by
        intro heq
        exact hnd.1 (heq ▸ List.mem_map_of_mem derived_key hrest)
      simp [lookupKey, hne, ih hnd.2 hrest]

/-! ### Broadcaster lemmas -/

theorem put_nowait_qid (e : BEvent) (q : EQueue) :
    (put_nowait e q).qid = q.qid := by
  unfold put_nowait
  split <;> rfl

theorem broadcast_event_qids (etype edata : String) (stamp : Nat)
    (qs : List EQueue) :
    (broadcast_event etype edata stamp qs).map EQueue.qid =
      qs.map EQueue.qid := by
  simp [broadcast_event, List.map_map, Function.comp, put_nowait_qid]

theorem removeFirstQ_removes (qid : Nat) (L : List EQueue)
    (h : (L.map EQueue.qid).Nodup) :
    ∀ q ∈ removeFirstQ qid L, q.qid ≠ qid := by
  induction L with
  | nil => simp [removeFirstQ]
  | cons q0 rest ih =>
    simp only [List.map_cons, List.nodup_cons] at h
    by_cases hq : q0.qid = qid
    · rw [show removeFirstQ qid (q0 :: rest) = rest from by
        simp [removeFirstQ, hq]]
      intro q hq' heq
      exact h.1 (hq ▸ heq ▸ List.mem_map_of_mem EQueue.qid hq')
    · rw [show removeFirstQ qid (q0 :: rest) = q0 :: removeFirstQ qid rest
        from by simp [removeFirstQ, hq]]
      intro q hq'
      rcases List.mem_cons.mp hq' with heq | hmem
      · exact heq ▸ hq
      · exact ih h.2 q hmem

theorem events_cleanup_removes (qid : Nat) (L : List EQueue)
    (h : (L.map EQueue.qid).Nodup) :
    ∀ q ∈ events_cleanup qid L, q.qid ≠ qid := by
  unfold events_cleanup
  split
  · exact removeFirstQ_removes qid L h
  · intro q hq heq
    rename_i hany
    exact hany (List.any_eq_true.mpr ⟨q, hq, by simp [heq]⟩)

/-! ### Power-state derivation lemmas -/

theorem ps_fold_eq (caps : List GoveeCap) :
    ∀ acc, (∀ c ∈ caps, c.ctype = "devices.capabilities.on_off" →
      c.inst = "powerSwitch" → c.value = some 0 ∨ c.value = some 1) →
    caps.foldl main_ps_step acc = caps.foldl worker_ps_step acc := by
  induction caps with
  | nil => intro acc _; rfl
  | cons c rest ih =>
    intro acc h
    simp only [List.foldl_cons]
    have hstep : main_ps_step acc c = worker_ps_step acc c := by
      unfold main_ps_step worker_ps_step
      by_cases hm : c.ctype = "devices.capabilities.on_off" ∧
          c.inst = "powerSwitch"
      · rcases h c (by simp) hm.1 hm.2 with h0 | h1
        · rw [if_pos hm, if_pos hm, h0]
          rfl
        · rw [if_pos hm, if_pos hm, h1]
          rfl
      · rw [if_neg hm, if_neg hm]
    rw [hstep]
    exact ih _ (fun c' hc' => h c' (by simp [hc']))

theorem main_ps_append (l : List GoveeCap) (c : GoveeCap) :
    main_power_state (l ++ [c]) = main_ps_step (main_power_state l) c := by
  simp [main_power_state, List.foldl_append]

theorem main_power_state_last (caps : List GoveeCap) :
    main_power_state caps =
      (match last_switch caps with
       | some c => if c.value = some 1 then "on" else "off"
       | none => "unknown") := by
  induction caps using List.reverseRecOn with
  | nil => rfl
  | append_singleton l c ih =>
    rw [main_ps_append]
    unfold last_switch at *
    rw [List.filter_append]
    by_cases hc : switch_value_cap c = true
    · have hprop := of_decide_eq_true hc
      rw [show List.filter switch_value_cap [c] = [c] from by
        simp [List.filter, hc]]
      rw [List.getLast?_concat]
      unfold main_ps_step
      rw [if_pos ⟨hprop.1, hprop.2.1⟩]
      rcases hprop.2.2 with h0 | h1
      · simp [h0]
      · simp [h1]
    · have hstep : main_ps_step (main_power_state l) c =
          main_power_state l := by
        unfold main_ps_step
        by_cases hm : c.ctype = "devices.capabilities.on_off" ∧
            c.inst = "powerSwitch"
        · have hval : ¬ (c.value = some 0 ∨ c.value = some 1) := by
            intro hv
            exact hc (decide_eq_true ⟨hm.1, hm.2, hv⟩)
          push_neg at hval
          rw [if_pos hm, if_neg hval.2, if_neg hval.1]
        · rw [if_neg hm]
      rw [hstep, ih]
      rw [show List.filter switch_value_cap [c] = [] from by
        simp [List.filter, hc]]
      rw [List.append_nil]

theorem online_fold_untouched (caps : List GoveeCap) :
    ∀ acc, (∀ c ∈ caps, c.ctype ≠ "devices.capabilities.online") →
    caps.foldl online_step acc = acc := by
  induction caps with
  | nil => intro acc _; rfl
  | cons c rest ih =>
    intro acc h
    simp only [List.foldl_cons]
    rw [show online_step acc c = acc from by
      unfold online_step
      rw [if_neg (h c (by simp))]]
    exact ih acc (fun c' hc' => h c' (by simp [hc']))

/-! ### Claim theorems -/

/-- C1: `broadcast_event` pushes the event to exactly the queues registered
at the moment of the call: every registered queue whose `put_nowait`
succeeds has the event appended, a queue whose push fails is left unchanged
without preventing delivery to any other queue (the result at each index
depends only on that queue), a queue deregistered before the call is no
longer in the list and so receives nothing, and a queue subscribed after
the call starts empty and so receives nothing for that event. -/
theorem broadcast_event_delivery (etype edata : String) (stamp : Nat)
    (qs : List EQueue) :
    (broadcast_event etype edata stamp qs).length = qs.length
  ∧ (∀ (i : Nat) q, qs[i]? = some q → q.broken = false →
      (broadcast_event etype edata stamp qs)[i]? =
        some { q with events := q.events ++ [⟨etype, edata, stamp⟩] })
  ∧ (∀ (i : Nat) q, qs[i]? = some q → q.broken = true →
      (broadcast_event etype edata stamp qs)[i]? = some q)
  ∧ (∀ qid, qid ∉ qs.map EQueue.qid →
      ∀ q ∈ subscribe qid (broadcast_event etype edata stamp qs),
        q.qid = qid → q.events = [])
  ∧ (∀ qid, (qs.map EQueue.qid).Nodup →
      ∀ q ∈ broadcast_event etype edata stamp (events_cleanup qid qs),
        q.qid ≠ qid) := by
  refine ⟨by simp [broadcast_event], ?_, ?_, ?_, ?_⟩
  · intro i q hi hb
    rw [broadcast_event, List.getElem?_map, hi]
    simp [put_nowait, hb]
  · intro i q hi hb
    rw [broadcast_event, List.getElem?_map, hi]
    simp [put_nowait, hb]
  · intro qid hfresh q hq hqid
    rcases List.mem_append.mp hq with hin | hnew
    · have hmem : q.qid ∈ (broadcast_event etype edata stamp qs).map
          EQueue.qid := List.mem_map_of_mem EQueue.qid hin
      rw [broadcast_event_qids] at hmem
      exact absurd (hqid ▸ hmem) hfresh
    · simp only [List.mem_singleton] at hnew
      rw [hnew]
  · intro qid hnd q hq
    rcases List.mem_map.mp hq with ⟨q', hq', rfl⟩
    rw [put_nowait_qid]
    exact events_cleanup_removes qid qs hnd q' hq'

/-- Witness for C1 at a two-queue state (one healthy, one broken). -/
theorem broadcast_event_delivery_witness :
    (broadcast_event "t" "d" 5 [⟨0, [], false⟩, ⟨1, [], true⟩])[0]? =
      some ⟨0, [⟨"t", "d", 5⟩], false⟩
  ∧ (broadcast_event "t" "d" 5 [⟨0, [], false⟩, ⟨1, [], true⟩])[1]? =
      some ⟨1, [], true⟩
  ∧ (⟨2, [], false⟩ : EQueue).events = []
  ∧ (⟨0, [⟨"t", "d", 5⟩], false⟩ : EQueue).qid ≠ 1 := by
  have h := broadcast_event_delivery "t" "d" 5
    [⟨0, [], false⟩, ⟨1, [], true⟩]
  refine ⟨h.2.1 0 ⟨0, [], false⟩ rfl rfl,
    h.2.2.1 1 ⟨1, [], true⟩ rfl rfl, ?_, ?_⟩
  · exact h.2.2.2.1 2 (by decide) ⟨2, [], false⟩ (by decide) rfl
  · exact h.2.2.2.2 1 (by decide) ⟨0, [⟨"t", "d", 5⟩], false⟩ (by decide)

/-- C2: starting from an empty registry, upserting discovered WeMo devices
with pairwise-distinct derived keys yields a registry holding exactly those
keys with exactly those records, and `GET /devices` lists exactly the
stored devices. -/
theorem store_wemo_devices_exact (found : List WemoDevice)
    (hnd : (found.map derived_key).Nodup) :
    store_wemo_devices found [] = found.map (fun d => (derived_key d, d))
  ∧ api_list_wemo_devices (store_wemo_devices found []) = found
  ∧ (store_wemo_devices found []).map Prod.fst = found.map derived_key
  ∧ ∀ d ∈ found,
      lookupKey (store_wemo_devices found []) (derived_key d) = some d := by
  have h1 : store_wemo_devices found [] =
      found.map (fun d => (derived_key d, d)) := by
    simpa using store_wemo_devices_append found [] (by simp) hnd
  refine ⟨h1, ?_, ?_, ?_⟩
  · rw [h1]
    simp [api_list_wemo_devices, List.map_map, Function.comp_def]
  · rw [h1]
    simp [List.map_map, Function.comp_def]
  · intro d hd
    rw [h1]
    exact lookupKey_keyed_map found d hnd hd

/-- Witness for C2 at a two-device discovery result. -/
theorem store_wemo_devices_exact_witness :
    store_wemo_devices [⟨some "S1", "n1"⟩, ⟨none, "n2"⟩] [] =
      [("S1", ⟨some "S1", "n1"⟩), ("n2", ⟨none, "n2"⟩)]
  ∧ lookupKey (store_wemo_devices [⟨some "S1", "n1"⟩, ⟨none, "n2"⟩] [])
      "S1" = some ⟨some "S1", "n1"⟩ := by
  have h := store_wemo_devices_exact [⟨some "S1", "n1"⟩, ⟨none, "n2"⟩]
    (by decide)
  refine ⟨h.1.trans (by decide), ?_⟩
  have h4 := h.2.2.2 ⟨some "S1", "n1"⟩ (by decide)
  have heq : derived_key ⟨some "S1", "n1"⟩ = "S1" := by decide
  exact heq ▸ h4

/-- C7: a WeMo control request on a key absent from the registry returns
404 via `get_wemo_device_or_404`, with the registry and the event queues
untouched. -/
theorem api_wemo_on_unknown (r : WemoReg) (qs : List EQueue)
    (device_id : String) (deviceOk : Bool) (stamp : Nat)
    (h : lookupKey r device_id = none) :
    api_wemo_on r qs device_id deviceOk stamp = (.notFound, r, qs) := by
  simp [api_wemo_on, h]

/-- Witness for C7 at a one-device registry and an unknown id. -/
theorem api_wemo_on_unknown_witness :
    api_wemo_on [("a", ⟨some "a", "x"⟩)] [] "unknown-id" true 0 =
      (.notFound, [("a", ⟨some "a", "x"⟩)], []) :=
  api_wemo_on_unknown [("a", ⟨some "a", "x"⟩)] [] "unknown-id" true 0
    (by decide)

/-- C8: whatever way the push-delivery loop of `event_generator` exits —
peer disconnection, normal generator shutdown, or an exception out of the
loop body — the `finally` block deregisters the subscriber's queue, so no
queue with its identity remains registered. -/
theorem event_generator_exit_deregisters (qid : Nat) (qs : List EQueue)
    (p : GenExit) (h : (qs.map EQueue.qid).Nodup) :
    ∀ q ∈ event_generator_exit qid qs p, q.qid ≠ qid := by
  cases p <;> exact events_cleanup_removes qid qs h

/-- Witness for C8 on the abnormal-termination path. -/
theorem event_generator_exit_deregisters_witness :
    (⟨0, [], false⟩ : EQueue).qid ≠ 1 :=
  event_generator_exit_deregisters 1 [⟨0, [], false⟩, ⟨1, [], false⟩]
    .abnormal (by decide) ⟨0, [], false⟩ (by decide)

/-- C3 counterexample: a device stored under its serial number keeps the
same derived key after a rename, so `get(oldKey)` succeeds (returns the
renamed record) instead of failing with `NotFound`, refuting the claim as
stated. -/
theorem api_wemo_rename_old_key_cex :
    api_wemo_rename [("S", ⟨some "S", "old"⟩)] "S" "new" =
      .ok [("S", ⟨some "S", "new"⟩)] ⟨some "S", "new"⟩
  ∧ lookupKey [("S", (⟨some "S", "new"⟩ : WemoDevice))] "S" =
      some ⟨some "S", "new"⟩ := by
  decide

/-- C3 amended: rename on a present key pops the old key and reinserts the
renamed record under the derived new key; `get(newKey)` returns the
renamed record, and `get(oldKey)` fails with `NotFound` provided the
derived new key differs from the old key; removing an absent key is a
silent no-op. -/
theorem api_wemo_rename_spec (r : WemoReg) (device_id newName : String)
    (d : WemoDevice) (hnd : (r.map Prod.fst).Nodup)
    (hfound : lookupKey r device_id = some d)
    (hname : ¬ (pyStrip newName = "")) :
    api_wemo_rename r device_id newName =
      .ok (upsert (popKey r device_id)
            (derived_key { d with name := pyStrip newName })
            { d with name := pyStrip newName })
          { d with name := pyStrip newName }
  ∧ lookupKey (upsert (popKey r device_id)
        (derived_key { d with name := pyStrip newName })
        { d with name := pyStrip newName })
      (derived_key { d with name := pyStrip newName }) =
      some { d with name := pyStrip newName }
  ∧ (derived_key { d with name := pyStrip newName } ≠ device_id →
      lookupKey (upsert (popKey r device_id)
          (derived_key { d with name := pyStrip newName })
          { d with name := pyStrip newName }) device_id = none)
  ∧ (∀ k, lookupKey r k = none → popKey r k = r) := by
  refine ⟨?_, lookupKey_upsert_self _ _ _, ?_,
    fun k hk => popKey_of_absent r k hk⟩
  · simp [api_wemo_rename, hname, hfound]
  · intro hne
    rw [lookupKey_upsert_ne _ _ _ _ (Ne.symm hne)]
    exact lookupKey_popKey_self r device_id hnd

/-- Witness for C3 (amended) at a name-keyed device, where the derived
new key differs from the old key. -/
theorem api_wemo_rename_spec_witness :
    api_wemo_rename [("n1", ⟨none, "n1"⟩)] "n1" "n2" =
      .ok [("n2", ⟨none, "n2"⟩)] ⟨none, "n2"⟩
  ∧ lookupKey [("n2", (⟨none, "n2"⟩ : WemoDevice))] "n1" = none := by
  have h := api_wemo_rename_spec [("n1", ⟨none, "n1"⟩)] "n1" "n2"
    ⟨none, "n1"⟩ (by decide) (by decide) (by decide)
  refine ⟨h.1.trans (by decide), ?_⟩
  have h3 := h.2.2.1 (by decide)
  have heq : upsert (popKey [("n1", (⟨none, "n1"⟩ : WemoDevice))] "n1")
      (derived_key { (⟨none, "n1"⟩ : WemoDevice) with name := pyStrip "n2" })
      { (⟨none, "n1"⟩ : WemoDevice) with name := pyStrip "n2" } =
      [("n2", ⟨none, "n2"⟩)] := by decide
  exact heq ▸ h3

/-- C4 counterexample: `govee_discover_devices` starts with
`govee_devices.clear()`, so a discovery run deletes every previously
cached Govee entry (here a run returning no devices removes key `A|1`),
refuting "discovery never deletes existing entries". -/
theorem govee_discover_clears_cex :
    lookupKey [("A|1", (⟨"A", "1", none⟩ : GoveeRaw))] "A|1" =
      some ⟨"A", "1", none⟩
  ∧ lookupKey (govee_discover_store []
      [("A|1", (⟨"A", "1", none⟩ : GoveeRaw))]) "A|1" = none := by
  decide

/-- C4 amended: keys stay unique within each family under every operation
(upsert, pop, WeMo discovery storage, rename, Govee discovery storage);
WeMo discovery only inserts or overwrites and never deletes; Govee
discovery replaces the whole Govee registry with the freshly discovered
set, independently of its previous contents. -/
theorem registry_invariant_spec :
    (∀ (r : WemoReg) k v, (r.map Prod.fst).Nodup →
      ((upsert r k v).map Prod.fst).Nodup)
  ∧ (∀ (r : WemoReg) k, (r.map Prod.fst).Nodup →
      ((popKey r k).map Prod.fst).Nodup)
  ∧ (∀ found (r : WemoReg), (r.map Prod.fst).Nodup →
      ((store_wemo_devices found r).map Prod.fst).Nodup)
  ∧ (∀ found (r : WemoReg) k, (lookupKey r k).isSome →
      (lookupKey (store_wemo_devices found r) k).isSome)
  ∧ (∀ data (r : GoveeReg),
      ((govee_discover_store data r).map Prod.fst).Nodup)
  ∧ (∀ data (r r' : GoveeReg),
      govee_discover_store data r = govee_discover_store data r') := by
  refine ⟨fun r k v h => nodup_keys_upsert r k v h,
    fun r k h => nodup_keys_popKey r k h,
    fun found r h => nodup_keys_store found r h,
    fun found r k h => lookupKey_store_isSome found r k h,
    ?_, fun data r r' => rfl⟩
  intro data r
  show ((List.foldl (fun acc d => upsert acc (govee_key d) d) [] data).map
    Prod.fst).Nodup
  have : ∀ (l : List GoveeRaw) (acc : GoveeReg),
      (acc.map Prod.fst).Nodup →
      ((List.foldl (fun acc d => upsert acc (govee_key d) d) acc l).map
        Prod.fst).Nodup := by
    intro l
    induction l with
    | nil => intro acc h; simpa using h
    | cons d rest ih =>
      intro acc h
      simp only [List.foldl_cons]
      exact ih (upsert acc (govee_key d) d)
        (nodup_keys_upsert acc (govee_key d) d h)
  exact this data [] (by simp)

/-- Witness for C4 (amended) on concrete registries. -/
theorem registry_invariant_spec_witness :
    ((upsert ([("a", ⟨some "a", "x"⟩)] : WemoReg) "b"
        ⟨some "b", "y"⟩).map Prod.fst).Nodup
  ∧ (lookupKey (store_wemo_devices [⟨some "b", "y"⟩]
        [("a", ⟨some "a", "x"⟩)]) "a").isSome
  ∧ govee_discover_store [⟨"A", "1", none⟩]
        [("old", ⟨"B", "2", none⟩)] =
      govee_discover_store [⟨"A", "1", none⟩] [] := by
  have h := registry_invariant_spec
  exact ⟨h.1 [("a", ⟨some "a", "x"⟩)] "b" ⟨some "b", "y"⟩ (by decide),
    h.2.2.2.1 [⟨some "b", "y"⟩] [("a", ⟨some "a", "x"⟩)] "a" (by decide),
    h.2.2.2.2.2 [⟨"A", "1", none⟩] [("old", ⟨"B", "2", none⟩)] []⟩

/-- C5 counterexample: in the FastAPI variant (`api_govee_discover`), the
batch refresh over one cached device whose state fetch fails returns an
empty list — the failing device is omitted, not included with state
`"unknown"` — refuting the claim for this variant. -/
theorem api_govee_discover_omits_cex :
    api_govee_discover_refresh (fun _ => none) ["AA:BB|dev1"] =
      ([] : List GoveeDeviceInfo)
  ∧ (["AA:BB|dev1"].length : Nat) = 1 := by
  constructor
  · rfl
  · rfl

/-- C5 amended: a failure fetching one device's state never aborts the
batch in either variant; the Worker variant keeps the failing device in
the result at its position with state `"unknown"`, while the FastAPI
variant omits the failing device but still returns every device whose
fetch succeeded. -/
theorem batch_refresh_partial_failure
    (fetchState : GoveeRaw → Option GoveeStatePayload)
    (devs : List GoveeRaw) (getState : String → Option GoveeDeviceInfo)
    (keys : List String) :
    (govee_discover_worker fetchState devs).length = devs.length
  ∧ (∀ (i : Nat) d, devs[i]? = some d → fetchState d = none →
      (govee_discover_worker fetchState devs)[i]? =
        some (worker_unknown_entry d))
  ∧ (∀ d, (worker_unknown_entry d).state = "unknown")
  ∧ (∀ k info, k ∈ keys → getState k = some info →
      info ∈ api_govee_discover_refresh getState keys) := by
  refine ⟨by simp [govee_discover_worker], ?_, fun d => rfl, ?_⟩
  · intro i d hi hf
    rw [govee_discover_worker, List.getElem?_map, hi]
    simp [hf]
  · intro k info hk hinfo
    exact List.mem_filterMap.mpr ⟨k, hk, hinfo⟩

/-- Witness for C5 (amended): one worker device whose fetch fails, one
FastAPI key whose fetch succeeds. -/
theorem batch_refresh_partial_failure_witness :
    (govee_discover_worker (fun _ => none) [⟨"A", "1", none⟩])[0]? =
      some (worker_unknown_entry ⟨"A", "1", none⟩)
  ∧ (worker_unknown_entry (⟨"A", "1", none⟩ : GoveeRaw)).state = "unknown"
  ∧ (⟨"k", none, "A", "1", true, true, "on", none⟩ : GoveeDeviceInfo) ∈
      api_govee_discover_refresh
        (fun _ => some ⟨"k", none, "A", "1", true, true, "on", none⟩)
        ["k"] := by
  have h := batch_refresh_partial_failure (fun _ => none)
    [⟨"A", "1", none⟩]
    (fun _ => some ⟨"k", none, "A", "1", true, true, "on", none⟩) ["k"]
  exact ⟨h.2.1 0 ⟨"A", "1", none⟩ rfl rfl,
    h.2.2.1 ⟨"A", "1", none⟩,
    h.2.2.2 "k" ⟨"k", none, "A", "1", true, true, "on", none⟩
      (by simp) rfl⟩

/-- C6 counterexample: in the FastAPI variant, a malformed composite key
(no `|` delimiter) with a valid action is simply absent from the registry
and yields 404 (`NotFound`), not 400, refuting the claim for this
variant. -/
theorem govee_control_malformed_404_cex :
    govee_control_main [] "nodelim" "on" = CtrlResult.notFound
  ∧ CtrlResult.notFound ≠ CtrlResult.badRequest := by
  decide

/-- C6 amended: an unsupported action yields 400 in both variants; a
composite key that does not split into exactly two parts yields 400 in the
Worker variant; in the FastAPI variant the registry lookup precedes key
parsing, so a key absent from the registry — in particular any key without
the `|` delimiter, since every stored key contains it — yields 404. -/
theorem govee_control_status_spec :
    (∀ (reg : GoveeReg) id a, ¬ (pyLower a = "on" ∨ pyLower a = "off") →
      govee_control_main reg id a = .badRequest
      ∧ govee_control_worker id a = .badRequest)
  ∧ (∀ id a, (pyLower a = "on" ∨ pyLower a = "off") →
      (pySplit '|' id).length ≠ 2 →
      govee_control_worker id a = .badRequest)
  ∧ (∀ (reg : GoveeReg) id a, (pyLower a = "on" ∨ pyLower a = "off") →
      lookupKey reg id = none →
      govee_control_main reg id a = .notFound)
  ∧ (∀ (reg : GoveeReg) id, (∀ p ∈ reg, '|' ∈ p.1.data) →
      '|' ∉ id.data → lookupKey reg id = none) := by
  refine ⟨?_, ?_, ?_, ?_⟩
  · intro reg id a h
    constructor
    · simp only [govee_control_main]
      rw [if_pos h]
    · simp only [govee_control_worker]
      rw [if_pos h]
  · intro id a ha hsplit
    simp only [govee_control_worker]
    rw [if_neg (not_not_intro ha)]
    rcases hl : pySplit '|' id with _ | ⟨x, _ | ⟨y, _ | ⟨z, t⟩⟩⟩
    · rfl
    · rfl
    · exact absurd (by rw [hl]; rfl) hsplit
    · rfl
  · intro reg id a ha hlook
    simp only [govee_control_main]
    rw [if_neg (not_not_intro ha), hlook]
  · intro reg id hwf hid
    rw [lookupKey_eq_none_iff]
    intro hmem
    rcases List.mem_map.mp hmem with ⟨p, hp, hkey⟩
    exact hid (hkey ▸ hwf p hp)

/-- Witness for C6 (amended) on concrete requests. -/
theorem govee_control_status_spec_witness :
    govee_control_main [("A|1", ⟨"A", "1", none⟩)] "A|1" "toggle" =
      CtrlResult.badRequest
  ∧ govee_control_worker "nodelim" "on" = CtrlResult.badRequest
  ∧ govee_control_main [("A|1", ⟨"A", "1", none⟩)] "nodelim" "ON" =
      CtrlResult.notFound
  ∧ lookupKey ([("A|1", ⟨"A", "1", none⟩)] : GoveeReg) "nodelim" =
      none := by
  have h := govee_control_status_spec
  refine ⟨(h.1 [("A|1", ⟨"A", "1", none⟩)] "A|1" "toggle" (by decide)).1,
    h.2.1 "nodelim" "on" (by decide) (by decide),
    h.2.2.1 [("A|1", ⟨"A", "1", none⟩)] "nodelim" "ON" (by decide)
      (by decide),
    h.2.2.2 [("A|1", ⟨"A", "1", none⟩)] "nodelim" (by decide) (by decide)⟩

/-- C9 counterexample: on a `powerSwitch` capability whose value is
missing, `_govee_state_from_payload` yields `"unknown"` while the worker's
inline derivation yields `"off"` — the two variants do not compute the
same power-state string. -/
theorem power_state_variants_differ_cex :
    (govee_state_from_payload "A" "1"
        ⟨none, [⟨"devices.capabilities.on_off", "powerSwitch", none⟩]⟩).state
      = "unknown"
  ∧ worker_power_state
      [⟨"devices.capabilities.on_off", "powerSwitch", none⟩] = "off"
  ∧ ("unknown" : String) ≠ "off" := by
  refine ⟨rfl, rfl, by decide⟩

/-- C9 amended: the FastAPI and Worker power-state derivations agree on
every payload in which each on/off `powerSwitch` capability carries value
exactly 0 or 1; on other values they diverge (`"unknown"` vs `"off"`). -/
theorem power_state_variants_agree (sku dev : String)
    (p : GoveeStatePayload)
    (h : ∀ c ∈ p.capabilities, c.ctype = "devices.capabilities.on_off" →
      c.inst = "powerSwitch" → c.value = some 0 ∨ c.value = some 1) :
    (govee_state_from_payload sku dev p).state =
      worker_power_state p.capabilities := by
  show main_power_state p.capabilities = worker_power_state p.capabilities
  exact ps_fold_eq p.capabilities "unknown" h

/-- Witness for C9 (amended) at a value-1 payload. -/
theorem power_state_variants_agree_witness :
    (govee_state_from_payload "A" "1"
        ⟨none, [⟨"devices.capabilities.on_off", "powerSwitch",
          some 1⟩]⟩).state =
      worker_power_state
        [⟨"devices.capabilities.on_off", "powerSwitch", some 1⟩] :=
  power_state_variants_agree "A" "1"
    ⟨none, [⟨"devices.capabilities.on_off", "powerSwitch", some 1⟩]⟩
    (by decide)

/-- C10 counterexample: with two `powerSwitch` capabilities, value 1 then
value 0, the derived state is `"off"` although some capability has value
exactly 1 — refuting the claimed "state is `on` iff some capability has
value 1". -/
theorem power_state_not_some_one_cex :
    (govee_state_from_payload "A" "1"
        ⟨none, [⟨"devices.capabilities.on_off", "powerSwitch", some 1⟩,
          ⟨"devices.capabilities.on_off", "powerSwitch", some 0⟩]⟩).state
      = "off"
  ∧ ([⟨"devices.capabilities.on_off", "powerSwitch", some 1⟩,
      ⟨"devices.capabilities.on_off", "powerSwitch", some 0⟩] :
        List GoveeCap).any
      (fun c => decide (c.ctype = "devices.capabilities.on_off" ∧
        c.inst = "powerSwitch" ∧ c.value = some 1)) = true
  ∧ ("off" : String) ≠ "on" := by
  refine ⟨rfl, by decide, by decide⟩

/-- C10 amended: the derived state is decided by the last on/off
`powerSwitch` capability whose value is exactly 0 or 1 — `"on"` for 1,
`"off"` for 0 — and is `"unknown"` when no such capability exists; when no
`devices.capabilities.online` capability is present, `online` is `None`. -/
theorem govee_state_from_payload_spec (sku dev : String)
    (p : GoveeStatePayload) :
    ((govee_state_from_payload sku dev p).state =
      (match last_switch p.capabilities with
       | some c => if c.value = some 1 then "on" else "off"
       | none => "unknown"))
  ∧ ((∀ c ∈ p.capabilities, c.ctype ≠ "devices.capabilities.online") →
      (govee_state_from_payload sku dev p).online = none) := by
  constructor
  · show main_power_state p.capabilities = _
    exact main_power_state_last p.capabilities
  · intro h
    show main_online p.capabilities = none
    exact online_fold_untouched p.capabilities none h

/-- Witness for C10 (amended) at a one-capability payload. -/
theorem govee_state_from_payload_spec_witness :
    (govee_state_from_payload "A" "1"
        ⟨none, [⟨"devices.capabilities.on_off", "powerSwitch",
          some 0⟩]⟩).state = "off"
  ∧ (govee_state_from_payload "A" "1"
        ⟨none, [⟨"devices.capabilities.on_off", "powerSwitch",
          some 0⟩]⟩).online = none := by
  have h := govee_state_from_payload_spec "A" "1"
    ⟨none, [⟨"devices.capabilities.on_off", "powerSwitch", some 0⟩]⟩
  exact ⟨h.1.trans (by decide), h.2 (by decide)⟩

end WemoCtl
